import Mathlib

/-!
Verification of the index-resolution, collision-detection and volume-solver
core of the scilifelab_epps repository (scripts/generate_aviti_run_manifest.py,
scripts/zika_methods.py, scripts/zika_utils.py), via a shallow embedding into
Lean.  DNA sequences are embedded as `List Char`, microliter quantities as `ℚ`,
nanoliter quantities as `ℕ`, and fallible Python code as `Except String`.
-/

namespace AvitiManifest

/-- Embeds the character mapping of `str.maketrans("ACGT", "TGCA")` used by
`revcomp` (generate_aviti_run_manifest.py line 72): characters outside the
translation table are left unchanged, exactly as in Python. -/
def complChar (c : Char) : Char :=
  match c with
  | 'A' => 'T'
  | 'C' => 'G'
  | 'G' => 'C'
  | 'T' => 'A'
  | c => c

/-- Embeds `revcomp` (generate_aviti_run_manifest.py lines 70-72):
`seq.translate(str.maketrans("ACGT", "TGCA"))[::-1]`, i.e. character-wise
translation followed by reversal. -/
def revcomp (seq : List Char) : List Char :=
  (seq.map complChar).reverse

/-- Embeds `fit_seq` (generate_aviti_run_manifest.py lines 285-299).
Errors model the `AssertionError`s raised by the Python code. -/
def fit_seq (seq : List Char) (length : ℕ) (seq_extension : Option (List Char)) :
    Except String (List Char) :=
  if seq.length = length then
    .ok seq
  else if seq.length > length then
    .ok (seq.take length)
  else
    match seq_extension with
    | none => .error "Cannot extend sequence without extension string."
    | some ext =>
        if length - seq.length > ext.length then
          .error "Extension string too short to fit sequence to desired length."
        else
          .ok (seq ++ ext.take (length - seq.length))

/-- Hamming distance between two equal-length strings, as computed by
`Levenshtein.hamming`: the count of positions at which they differ. -/
def hammingCount (a b : List Char) : ℕ :=
  (a.zip b).countP fun p => decide (p.1 ≠ p.2)

/-- Embeds the Python `Levenshtein.hamming` distance used in
`check_pair_distance`: it raises on strings of unequal length. -/
def pyHamming (a b : List Char) : Except String ℕ :=
  if a.length = b.length then .ok (hammingCount a b)
  else .error "hamming: sequences of unequal length"

/-- Character class `[ATCG]` of the generic index regex `IDX_PAT`
(generate_aviti_run_manifest.py line 26). -/
def isACGT (c : Char) : Bool :=
  c = 'A' ∨ c = 'T' ∨ c = 'C' ∨ c = 'G'

/-- The first match of `IDX_PAT = ([ATCG]{4,}N*)-?([ATCG]*)` in a label, as
found by `re.findall(...)[0]`: the regex engine scans left to right for the
first position carrying a run of at least four `[ATCG]` characters; group 1
greedily takes that run plus any following `N` run, an optional `-` is then
consumed, and group 2 greedily takes the following `[ATCG]` run.  Because the
pattern has two capture groups, `re.findall` yields the pair of group texts. -/
def idxPatFirst : List Char → Option (List Char × List Char)
  | [] => none
  | c :: rest =>
      let run := (c :: rest).takeWhile isACGT
      if 4 ≤ run.length then
        let afterRun := (c :: rest).dropWhile isACGT
        let ns := afterRun.takeWhile (fun x => x = 'N')
        let afterNs := afterRun.dropWhile (fun x => x = 'N')
        let afterDash := match afterNs with
          | '-' :: t => t
          | t => t
        some (run ++ ns, afterDash.takeWhile isACGT)
      else
        idxPatFirst rest

/-- The minimum of a list of naturals, as taken by Python's `min` over the
nonempty `flips` list in `check_pair_distance`. -/
def listMinNat : List ℕ → ℕ
  | [] => 0
  | [a] => a
  | a :: b :: rest => min a (listMinNat (b :: rest))

/-- A manifest row as far as `check_pair_distance` reads it: the sample name
and the two index sequences. -/
structure ManifestRow where
  sampleName : String
  index1 : List Char
  index2 : List Char
  deriving DecidableEq, Repr

/-- The 16 reverse-complement combinations enumerated by the nested loops of
`check_pair_distance` when `check_flips` is set
(generate_aviti_run_manifest.py lines 324-346), in loop order: `a1` varies
slowest, `b2` fastest, and in each axis the unflipped sequence comes first. -/
def flipCombos (row row_comp : ManifestRow) :
    List (List Char × List Char × List Char × List Char) :=
  ([row.index1, revcomp row.index1]).flatMap fun a1 =>
    ([row.index2, revcomp row.index2]).flatMap fun a2 =>
      ([row_comp.index1, revcomp row_comp.index1]).flatMap fun b1 =>
        ([row_comp.index2, revcomp row_comp.index2]).map fun b2 =>
          (a1, a2, b1, b2)

/-- The distance computed by `check_pair_distance`
(generate_aviti_run_manifest.py lines 324-355): with `check_flips`, the
minimum over all 16 combinations of `distance(a1, b1) + distance(a2, b2)`;
without, the Hamming distance over the concatenations `Index1 + Index2`.
The error case models `Levenshtein.hamming` raising on unequal lengths. -/
def pairDist (row row_comp : ManifestRow) (check_flips : Bool) :
    Except String ℕ :=
  if check_flips then do
    let ds ← (flipCombos row row_comp).mapM fun c => do
      let d1 ← pyHamming c.1 c.2.2.1
      let d2 ← pyHamming c.2.1 c.2.2.2
      pure (d1 + d2)
    pure (listMinNat ds)
  else
    pyHamming (row.index1 ++ row.index2) (row_comp.index1 ++ row_comp.index2)

/-- The observable outcome of `check_pair_distance`
(generate_aviti_run_manifest.py lines 357-379): the list of warning messages
passed to `logging.warning`, and whether the fatal
`AssertionError("Identical indices detected.")` is raised.  An `Except.error`
models the `Levenshtein.hamming` exception on unequal lengths; the warning
text is abbreviated to its leading line. -/
def check_pair_distance (row row_comp : ManifestRow) (check_flips : Bool)
    (dist_warning_threshold : ℕ) : Except String (List String × Bool) := do
  let dist ← pairDist row row_comp check_flips
  if dist ≤ dist_warning_threshold then
    let warning :=
      "Hamming distance " ++ toString dist ++ " between " ++
        row.sampleName ++ " and " ++ row_comp.sampleName
    if dist = 0 then
      pure ([warning], true)
    else
      pure ([warning], false)
  else
    pure ([], false)

/-- A resolved index entry: a bare single index or a dual index pair. -/
inductive Idx where
  | single (i : List Char)
  | dual (i1 i2 : List Char)
  deriving DecidableEq, Repr

/-- Embeds the generic-pattern branch of `idxs_from_label`
(generate_aviti_run_manifest.py lines 106-115), taken when the label matches
none of the 10X / SMARTSEQ / NoIndex patterns.  `match` is the pair returned
by `re.findall(label)[0]`; the Python test `"-" in match` is tuple membership
(whether either group text equals `"-"`), not substring search.  If that test
ever succeeded, `match.split("-")` would raise (tuples have no `split`);
otherwise `idxs.append(idx1)` appends the pair itself. -/
def idxs_from_label_generic (label : List Char) : Except String (List Idx) :=
  match idxPatFirst label with
  | none => .error "Could not parse index from label."
  | some (g1, g2) =>
      if g1 = ['-'] ∨ g2 = ['-'] then
        .error "AttributeError: tuple object has no attribute split"
      else
        .ok [Idx.dual g1 g2]

end AvitiManifest

namespace Zika

/-- A sample row as read by the normalization volume solver of
`norm` (zika_methods.py): concentration, accessible volume (raw volume minus
dead volume, as set on lines 360-361), target amount and target volume. -/
structure NormRow where
  conc : ℚ
  vol : ℚ
  target_amt : ℚ
  target_vol : ℚ
  deriving DecidableEq, Repr

/-- `target_conc` (zika_methods.py line 377): `target_amt / target_vol`. -/
def targetConc (r : NormRow) : ℚ := r.target_amt / r.target_vol

/-- `min_transfer_amt` (zika_methods.py line 378):
`min(vol, zika_min_vol) * conc`. -/
def minTransferAmt (zika_min_vol : ℚ) (r : NormRow) : ℚ :=
  min r.vol zika_min_vol * r.conc

/-- `max_transfer_amt` (zika_methods.py line 379):
`min(vol, target_vol) * conc`. -/
def maxTransferAmt (r : NormRow) : ℚ :=
  min r.vol r.target_vol * r.conc

/-- One computed transfer-plan row of the normalization solver. -/
structure NormResult where
  sample_vol : ℚ
  buffer_vol : ℚ
  tot_vol : ℚ
  deriving DecidableEq, Repr

/-- Embeds the three-case volume computation of `norm`
(zika_methods.py lines 389-422) for one sample row.  The `Except.error`
models the `AssertionError` raised when volume expansion would exceed
`well_max_vol`.  The final catch-all branch is unreachable (the three `elif`
conditions are exhaustive over a linear order). -/
def normVolumes (volume_expansion : Bool) (zika_min_vol well_max_vol : ℚ)
    (r : NormRow) : Except String NormResult :=
  if maxTransferAmt r < r.target_amt then
    let sample_vol := min r.target_vol r.vol
    let tot_vol := r.target_vol
    .ok ⟨sample_vol, tot_vol - sample_vol, tot_vol⟩
  else if minTransferAmt zika_min_vol r ≤ r.target_amt ∧
      r.target_amt ≤ maxTransferAmt r then
    let sample_vol := r.target_amt / r.conc
    let buffer_vol := r.target_vol - sample_vol
    .ok ⟨sample_vol, buffer_vol, sample_vol + buffer_vol⟩
  else if minTransferAmt zika_min_vol r > r.target_amt then
    if volume_expansion then
      let increased_vol := minTransferAmt zika_min_vol r / targetConc r
      if increased_vol ≤ well_max_vol then
        .ok ⟨zika_min_vol, increased_vol - zika_min_vol, increased_vol⟩
      else
        .error "Sample is too concentrated and must be diluted manually"
    else
      .ok ⟨zika_min_vol, r.target_vol - zika_min_vol, r.target_vol⟩
  else
    .error "unreachable"

/-- A sample of a pool as read by the pooling solver of `pool`
(zika_methods.py): concentration and accessible volume (raw volume minus
dead volume, lines 81-82). -/
structure PoolSample where
  conc : ℚ
  vol : ℚ
  deriving DecidableEq, Repr

/-- Maximum of a list of rationals, as Python's `max` over a nonempty
series. -/
def listMaxQ : List ℚ → ℚ
  | [] => 0
  | [a] => a
  | a :: b :: rest => max a (listMaxQ (b :: rest))

/-- Minimum of a list of rationals, as Python's `min` over a nonempty
series. -/
def listMinQ : List ℚ → ℚ
  | [] => 0
  | [a] => a
  | a :: b :: rest => min a (listMinQ (b :: rest))

/-- `highest_min_amount` (zika_methods.py line 146):
`max(df_pool.min_amount)` where `min_amount = zika_min_vol * conc`. -/
def highestMinAmount (zika_min_vol : ℚ) (samples : List PoolSample) : ℚ :=
  listMaxQ (samples.map fun s => zika_min_vol * s.conc)

/-- `lowest_max_amount` (zika_methods.py line 147):
`min(df_pool.max_amount)` where `max_amount = vol * conc`. -/
def lowestMaxAmount (samples : List PoolSample) : ℚ :=
  listMinQ (samples.map fun s => s.vol * s.conc)

/-- `even_pool_is_possible` (zika_methods.py line 148). -/
def evenPoolIsPossible (zika_min_vol : ℚ) (samples : List PoolSample) : Bool :=
  highestMinAmount zika_min_vol samples < lowestMaxAmount samples

/-- `pool_min_amt` (zika_methods.py line 151):
`highest_min_amount * len(df_pool)`. -/
def poolMinAmt (zika_min_vol : ℚ) (samples : List PoolSample) : ℚ :=
  highestMinAmount zika_min_vol samples * samples.length

/-- `pool_min_sample_vol` (zika_methods.py line 152):
`sum(highest_min_amount / df_pool.conc)`. -/
def poolMinSampleVol (zika_min_vol : ℚ) (samples : List PoolSample) : ℚ :=
  (samples.map fun s => highestMinAmount zika_min_vol samples / s.conc).sum

/-- `pool_min_conc` (zika_methods.py line 153). -/
def poolMinConc (zika_min_vol well_max_vol : ℚ) (samples : List PoolSample) : ℚ :=
  poolMinAmt zika_min_vol samples / well_max_vol

/-- `pool_max_conc` (zika_methods.py line 154). -/
def poolMaxConc (zika_min_vol : ℚ) (samples : List PoolSample) : ℚ :=
  poolMinAmt zika_min_vol samples / poolMinSampleVol zika_min_vol samples

/-- The solved pool concentration (zika_methods.py lines 159-167): the target
clamped into `[pool_min_conc, pool_max_conc]`. -/
def poolConc (zika_min_vol well_max_vol target_pool_conc : ℚ)
    (samples : List PoolSample) : ℚ :=
  if target_pool_conc > poolMaxConc zika_min_vol samples then
    poolMaxConc zika_min_vol samples
  else if target_pool_conc < poolMinConc zika_min_vol well_max_vol samples then
    poolMinConc zika_min_vol well_max_vol samples
  else
    target_pool_conc

/-- `pool_min_vol_given_conc` (zika_methods.py line 170). -/
def poolMinVolGivenConc (zika_min_vol well_max_vol target_pool_conc : ℚ)
    (samples : List PoolSample) : ℚ :=
  min (poolMinAmt zika_min_vol samples /
        poolConc zika_min_vol well_max_vol target_pool_conc samples)
    well_max_vol

/-- `pool_max_amt` (zika_methods.py line 173):
`lowest_max_amount * len(df_pool)`. -/
def poolMaxAmt (samples : List PoolSample) : ℚ :=
  lowestMaxAmount samples * samples.length

/-- `pool_max_vol_given_conc` (zika_methods.py line 174), computed in the
`even_pool_is_possible` branch. -/
def poolMaxVolGivenConc (zika_min_vol well_max_vol target_pool_conc : ℚ)
    (samples : List PoolSample) : ℚ :=
  min (poolMaxAmt samples /
        poolConc zika_min_vol well_max_vol target_pool_conc samples)
    well_max_vol

/-- The solved pool volume (zika_methods.py lines 170-192).  Note that in the
over-target branch the code assigns `well_max_vol`, not
`pool_max_vol_given_conc`. -/
def poolVol (zika_min_vol well_max_vol target_pool_conc target_pool_vol : ℚ)
    (samples : List PoolSample) : ℚ :=
  if evenPoolIsPossible zika_min_vol samples then
    if target_pool_vol <
        poolMinVolGivenConc zika_min_vol well_max_vol target_pool_conc samples then
      poolMinVolGivenConc zika_min_vol well_max_vol target_pool_conc samples
    else if target_pool_vol >
        poolMaxVolGivenConc zika_min_vol well_max_vol target_pool_conc samples then
      well_max_vol
    else
      target_pool_vol
  else
    poolMinVolGivenConc zika_min_vol well_max_vol target_pool_conc samples

/-- A row of the pooling dataframe `df_pool` as it exists at
zika_methods.py lines 130-135: the columns fetched by `to_fetch`
(lines 57-73) plus `full_vol` added on line 81.  There is no column named
`name`. -/
structure PoolRow where
  sample_name : String
  conc : ℚ
  conc_units : String
  vol : ℚ
  source_fc : String
  source_well : String
  dest_fc : String
  dest_well : String
  dest_fc_name : String
  amt_taken : ℚ
  pool_vol_final : ℚ
  target_name : String
  full_vol : ℚ
  deriving DecidableEq, Repr

/-- Pandas column selection `df_pool.loc[mask, col]` for the string-typed
columns of `df_pool`: selecting a label absent from the columns raises a
`KeyError`, which the error case models. -/
def selectStrColumn (df : List PoolRow) : String → Except String (List String)
  | "sample_name" => .ok (df.map fun r => r.sample_name)
  | "conc_units" => .ok (df.map fun r => r.conc_units)
  | "source_fc" => .ok (df.map fun r => r.source_fc)
  | "source_well" => .ok (df.map fun r => r.source_well)
  | "dest_fc" => .ok (df.map fun r => r.dest_fc)
  | "dest_well" => .ok (df.map fun r => r.dest_well)
  | "dest_fc_name" => .ok (df.map fun r => r.dest_fc_name)
  | "target_name" => .ok (df.map fun r => r.target_name)
  | c => .error ("KeyError: " ++ c)

/-- Embeds the degenerate-concentration handling of `pool`
(zika_methods.py lines 130-135): when any concentration is below 0.01 the
code first evaluates `df_pool.loc[df_pool.conc < 0.01, "name"]` to build the
warning, then clamps the concentrations and appends the warning to the log. -/
def clampLowConcs (df : List PoolRow) :
    Except String (List PoolRow × List String) :=
  if (df.filter fun r => r.conc < 1/100).isEmpty then
    .ok (df, [])
  else do
    let names ← selectStrColumn (df.filter fun r => r.conc < 1/100) "name"
    let clamped := df.map fun r =>
      if r.conc < 1/100 then { r with conc := 1/100 } else r
    .ok (clamped,
      ["WARNING: the following sample(s) fell short of, and will be treated as, 0.01: "
        ++ String.intercalate ", " names])

/-- A formatted transfer row as it reaches `write_worklist`
(zika_utils.py): plate names, deck positions, well coordinates, and the
transfer volume in integer nanoliters. -/
structure TransferRow where
  src_name : String
  src_pos : ℕ
  src_col : ℕ
  src_row : ℕ
  dst_name : String
  dst_pos : ℕ
  dst_well : String
  dst_col : ℕ
  dst_row : ℕ
  transfer_vol : ℕ
  deriving DecidableEq, Repr

/-- The multi-aspiration condition of `write_worklist`
(zika_utils.py lines 387-403), comparing a row `a` against the next row `b`
(`df.shift(-1)`): same destination position and well, `a` is buffer, `b` is
not, and their combined volume is at most 5000 nl. -/
def maFilter (a b : TransferRow) : Bool :=
  a.dst_pos = b.dst_pos ∧ a.dst_well = b.dst_well ∧
    a.src_name = "buffer_plate" ∧ b.src_name ≠ "buffer_plate" ∧
    a.transfer_vol + b.transfer_vol ≤ 5000

/-- Assigns each row its `transfer_type` (zika_utils.py lines 385-404):
`COPY` by default; `MULTI_ASPIRATE` when multi-aspiration is enabled and the
filter relates the row to its successor.  The last row never matches
(`df.shift(-1)` yields no successor). -/
def transferTypes (multi_aspirate : Bool) :
    List TransferRow → List (TransferRow × String)
  | [] => []
  | [a] => [(a, "COPY")]
  | a :: b :: rest =>
      (a, if multi_aspirate ∧ maFilter a b then "MULTI_ASPIRATE" else "COPY") ::
        transferTypes multi_aspirate (b :: rest)

/-- Serializes one typed transfer row into the comma-joined fields written by
the output loop of `write_worklist` (zika_utils.py lines 469-501), with the
default always-change-tips strategy variable `[VAR1]` (no `keep_buffer_tips`,
as at every call site of this repository). -/
def serializeRow : TransferRow × String → List String
  | (r, t) =>
      if t = "MULTI_ASPIRATE" then
        [t, toString r.src_pos, toString r.src_col, toString r.src_row, "1",
          toString r.transfer_vol]
      else
        [t, toString r.src_pos, toString r.src_col, toString r.src_col,
          toString r.src_row, toString r.dst_pos, toString r.dst_col,
          toString r.dst_row, toString r.transfer_vol, "[VAR1]"]

/-- The sequence of instruction rows serialized by `write_worklist`
(zika_utils.py lines 384-404 and 469-501) for a formatted dataframe, with
`keep_buffer_tips` unset as at every call site in this repository. -/
def write_worklist_rows (multi_aspirate : Bool) (df : List TransferRow) :
    List (List String) :=
  (transferTypes multi_aspirate df).map serializeRow

end Zika

namespace AvitiManifest

lemma complChar_complChar (c : Char) : complChar (complChar c) = c := by
  by_cases hA : c = 'A'
  · subst hA; rfl
  by_cases hC : c = 'C'
  · subst hC; rfl
  by_cases hG : c = 'G'
  · subst hG; rfl
  by_cases hT : c = 'T'
  · subst hT; rfl
  have h : complChar c = c := by
    unfold complChar
    split <;> simp_all
  rw [h, h]

lemma complChar_eq_self (c : Char) (h : c ∉ (['A', 'C', 'G', 'T'] : List Char)) :
    complChar c = c := by
  simp only [List.mem_cons, List.not_mem_nil, or_false, not_or] at h
  unfold complChar
  split <;> simp_all

lemma revcomp_length (s : List Char) : (revcomp s).length = s.length := by
  simp [revcomp]

/-- C10: `revcomp` is total on arbitrary strings: it preserves length, it
carries characters outside `{A,C,G,T}` through unchanged (only repositioned
by the reversal, to the mirrored index), and it is an involution on every
string, not just ACGT-alphabet strings. -/
theorem revcomp_total_involution (s : List Char) :
    (revcomp s).length = s.length ∧
    revcomp (revcomp s) = s ∧
    (∀ (i : ℕ) (c : Char), s[i]? = some c →
      c ∉ (['A', 'C', 'G', 'T'] : List Char) →
      (revcomp s)[s.length - 1 - i]? = some c) := by
  refine ⟨revcomp_length s, ?_, ?_⟩
  · unfold revcomp
    rw [List.map_reverse, List.reverse_reverse, List.map_map]
    have : complChar ∘ complChar = id := by
      funext c; exact complChar_complChar c
    rw [this, List.map_id]
  · intro i c hic hc
    have hi : i < s.length := by
      by_contra hlt
      rw [List.getElem?_eq_none (by omega)] at hic
      exact Option.noConfusion hic
    unfold revcomp
    have hlen : s.length - 1 - i < (s.map complChar).length := by
      simp only [List.length_map]; omega
    rw [List.getElem?_reverse hlen]
    simp only [List.length_map]
    have : s.length - 1 - (s.length - 1 - i) = i := by omega
    rw [this, List.getElem?_map, hic]
    simp [complChar_eq_self c hc]

/-- Witness for C10's hypothesis-bearing part at the concrete string
`"AXGT"`: position 1 holds `X`, which is outside the ACGT alphabet and
reappears unchanged at mirrored position 2 of the reverse complement. -/
theorem revcomp_total_involution_witness :
    ("AXGT".toList)[1]? = some 'X' ∧
    'X' ∉ (['A', 'C', 'G', 'T'] : List Char) ∧
    (revcomp "AXGT".toList)["AXGT".toList.length - 1 - 1]? = some 'X' := by
  refine ⟨by decide, by decide, ?_⟩
  exact (revcomp_total_involution "AXGT".toList).2.2 1 'X' (by decide) (by decide)

/-- C9: `fit_seq` with a requested length at most the sequence length returns
the prefix of that size (the sequence itself at equal lengths), and with a
larger requested length and no extension string it raises an error rather
than padding. -/
theorem fit_seq_prefix_or_error (seq : List Char) (len : ℕ)
    (ext : Option (List Char)) :
    (len ≤ seq.length → fit_seq seq len ext = .ok (seq.take len)) ∧
    (seq.length < len → ∃ e, fit_seq seq len none = .error e) := by
  constructor
  · intro hle
    unfold fit_seq
    rcases eq_or_lt_of_le hle with heq | hlt
    · rw [if_pos heq.symm, heq, List.take_length]
    · rw [if_neg (by omega), if_pos hlt]
  · intro hgt
    unfold fit_seq
    rw [if_neg (by omega), if_neg (by omega)]
    exact ⟨_, rfl⟩

/-- Witness for C9 at the PhiX index `ATGTCGCTAG`: truncation to length 6
yields the prefix `ATGTCG`, and extension to length 12 with no extension
string errors. -/
theorem fit_seq_prefix_or_error_witness :
    (6 ≤ "ATGTCGCTAG".toList.length ∧
      fit_seq "ATGTCGCTAG".toList 6 none = .ok ("ATGTCGCTAG".toList.take 6)) ∧
    ("ATGTCGCTAG".toList.length < 12 ∧
      ∃ e, fit_seq "ATGTCGCTAG".toList 12 none = .error e) :=
  ⟨⟨by decide, (fit_seq_prefix_or_error "ATGTCGCTAG".toList 6 none).1 (by decide)⟩,
    ⟨by decide, (fit_seq_prefix_or_error "ATGTCGCTAG".toList 12 none).2 (by decide)⟩⟩

/-- C1 (code bug): on the label `ACGTACGT-AACC`, which matches only the
generic index pattern with a `-` separator present in the matched text, the
resolver appends the raw pair of regex groups without reverse-complementing
the second index — the `"-" in match` test is membership in the `findall`
tuple, so the split-and-revcomp branch is unreachable — whereas the claim
requires the pair `(idx1, revcomp(idx2))`. -/
theorem idxs_from_label_generic_dash_no_revcomp :
    idxs_from_label_generic "ACGTACGT-AACC".toList =
      .ok [Idx.dual "ACGTACGT".toList "AACC".toList] ∧
    revcomp "AACC".toList ≠ "AACC".toList := by
  constructor
  · rfl
  · decide

end AvitiManifest

namespace Zika

/-- C4 (code bug): whenever a pool contains a sample with concentration below
0.01, the degenerate-concentration path of `pool` raises a `KeyError`: line
132 selects the nonexistent column `name` (the dataframe's columns are
`sample_name`, `conc`, ...), so the warning is never logged and the
concentrations are never clamped — the run aborts instead of continuing. -/
theorem clampLowConcs_raises (df : List PoolRow)
    (h : (df.filter fun r => r.conc < 1/100) ≠ []) :
    clampLowConcs df = .error "KeyError: name" := by
  unfold clampLowConcs
  rw [if_neg (by simpa [List.isEmpty_iff] using h)]
  rfl

/-- Witness for C4 at a pool holding one sample of concentration 0.005: the
computation errors out. -/
theorem clampLowConcs_raises_witness :
    (([⟨"P1", 1/200, "ng/ul", 10, "sp", "A:1", "dp", "B:1", "dn", 1, 100,
        "pool1", 15⟩] : List PoolRow).filter fun r => r.conc < 1/100) ≠ [] ∧
    clampLowConcs
      [⟨"P1", 1/200, "ng/ul", 10, "sp", "A:1", "dp", "B:1", "dn", 1, 100,
        "pool1", 15⟩] = .error "KeyError: name" :=
  ⟨by norm_num [List.filter_cons],
    clampLowConcs_raises _ (by norm_num [List.filter_cons])⟩

/-- A buffer transfer row at destination well `A:1` of deck position 4,
2000 nl. -/
def exBufferRow : TransferRow :=
  ⟨"buffer_plate", 2, 1, 1, "dst_plate", 4, "A:1", 1, 1, 2000⟩

/-- A sample transfer row to the same destination well `A:1` of deck
position 4, 2500 nl. -/
def exSampleRow : TransferRow :=
  ⟨"source_plate", 3, 1, 1, "dst_plate", 4, "A:1", 1, 1, 2500⟩

/-- C2 (counterexample): with multi-aspiration enabled, a 2000 nl buffer
transfer immediately followed by a 2500 nl sample transfer to the identical
destination position and well (combined volume 4500 ≤ 5000) serializes to TWO
instruction rows — a `MULTI_ASPIRATE` row carrying only the buffer's own
volume 2000 and a `COPY` row for the sample — and no row carries the combined
volume 4500, contradicting the claim of a single combined-volume row. -/
theorem write_worklist_not_single_combined_row :
    maFilter exBufferRow exSampleRow = true ∧
    write_worklist_rows true [exBufferRow, exSampleRow] =
      [["MULTI_ASPIRATE", "2", "1", "1", "1", "2000"],
        ["COPY", "3", "1", "1", "1", "4", "1", "1", "2500", "[VAR1]"]] ∧
    (write_worklist_rows true [exBufferRow, exSampleRow]).length ≠ 1 ∧
    ∀ row ∈ write_worklist_rows true [exBufferRow, exSampleRow],
      "4500" ∉ row := by
  exact ⟨by decide, by decide, by decide, by decide⟩

lemma transferTypes_getElem (m : Bool) :
    ∀ (df : List TransferRow) (i : ℕ),
      (transferTypes m df)[i]? = (df[i]?).map fun a =>
        (a, match df[i + 1]? with
            | some b => if m ∧ maFilter a b then "MULTI_ASPIRATE" else "COPY"
            | none => "COPY")
  | [], i => by simp [transferTypes]
  | [a], 0 => by simp [transferTypes]
  | [a], (i + 1) => by simp [transferTypes]
  | a :: b :: rest, 0 => by simp [transferTypes]
  | a :: b :: rest, (i + 1) => by
      simpa [transferTypes] using transferTypes_getElem m (b :: rest) i

lemma serializeRow_copy (b : TransferRow) :
    serializeRow (b, "COPY") =
      ["COPY", toString b.src_pos, toString b.src_col, toString b.src_col,
        toString b.src_row, toString b.dst_pos, toString b.dst_col,
        toString b.dst_row, toString b.transfer_vol, "[VAR1]"] := rfl

lemma serializeRow_multi_aspirate (a : TransferRow) :
    serializeRow (a, "MULTI_ASPIRATE") =
      ["MULTI_ASPIRATE", toString a.src_pos, toString a.src_col,
        toString a.src_row, "1", toString a.transfer_vol] := rfl

/-- C2 (amended): with multi-aspiration enabled, for every buffer transfer
immediately followed (in sorted order) by a sample transfer to the identical
destination position and well with combined volume at most 5000 nl, the
serialized worklist contains a `MULTI_ASPIRATE` instruction row carrying the
buffer transfer's own volume, immediately followed by the sample transfer's
`COPY` row — the two transfers are not merged into one combined-volume row. -/
theorem write_worklist_multi_aspirate_pair (df : List TransferRow) (i : ℕ)
    (a b : TransferRow) (ha : df[i]? = some a) (hb : df[i + 1]? = some b)
    (hf : maFilter a b = true) :
    (write_worklist_rows true df)[i]? =
      some ["MULTI_ASPIRATE", toString a.src_pos, toString a.src_col,
        toString a.src_row, "1", toString a.transfer_vol] ∧
    (write_worklist_rows true df)[i + 1]? =
      some ["COPY", toString b.src_pos, toString b.src_col, toString b.src_col,
        toString b.src_row, toString b.dst_pos, toString b.dst_col,
        toString b.dst_row, toString b.transfer_vol, "[VAR1]"] := by
  have hbnotbuf : b.src_name ≠ "buffer_plate" := by
    simp only [maFilter, decide_eq_true_eq] at hf
    exact hf.2.2.2.1
  unfold write_worklist_rows
  constructor
  · rw [List.getElem?_map, transferTypes_getElem, ha, hb]
    simp [hf, serializeRow_multi_aspirate]
  · rw [List.getElem?_map, transferTypes_getElem, hb]
    cases hc : df[i + 1 + 1]? with
    | none => simp [serializeRow_copy]
    | some c =>
        have hfc : maFilter b c = false := by
          rcases Bool.eq_false_or_eq_true (maFilter b c) with h | h
          · exfalso
            simp only [maFilter, decide_eq_true_eq] at h
            exact hbnotbuf h.2.2.1
          · exact h
        simp [hfc, serializeRow_copy]

/-- Witness for C2's amended theorem at the concrete buffer/sample pair. -/
theorem write_worklist_multi_aspirate_pair_witness :
    ([exBufferRow, exSampleRow][0]? = some exBufferRow) ∧
    ([exBufferRow, exSampleRow][0 + 1]? = some exSampleRow) ∧
    maFilter exBufferRow exSampleRow = true ∧
    (write_worklist_rows true [exBufferRow, exSampleRow])[0]? =
      some ["MULTI_ASPIRATE", toString exBufferRow.src_pos,
        toString exBufferRow.src_col, toString exBufferRow.src_row, "1",
        toString exBufferRow.transfer_vol] :=
  ⟨rfl, rfl, by decide,
    (write_worklist_multi_aspirate_pair [exBufferRow, exSampleRow] 0
      exBufferRow exSampleRow rfl rfl (by decide)).1⟩

end Zika

namespace Zika

/-- C5 (counterexample): the invariants do not hold for every solver case as
claimed.  For a sample of concentration 1000 with accessible volume 0.05,
target amount 1 and target volume 20, with minimum pipetting volume 0.1 and
`well_max_vol` 15 and volume expansion disabled, the solver yields
`sample_vol = 0.1 > 0.05` (exceeding the accessible volume) and
`tot_vol = 20 > 15` (exceeding `well_max_vol`). -/
theorem normVolumes_invariants_counterexample :
    normVolumes false (1/10) 15 ⟨1000, 1/20, 1, 20⟩ =
      .ok ⟨1/10, 20 - 1/10, 20⟩ ∧
    ¬ ((1:ℚ)/10 ≤ 1/20) ∧ ¬ ((20:ℚ) ≤ 15) := by
  refine ⟨?_, by norm_num, by norm_num⟩
  norm_num [normVolumes, maxTransferAmt, minTransferAmt]

/-- C5 (amended): for every sample row whose target volume is positive and
at most `well_max_vol`, whose accessible volume is at least the (nonnegative)
minimum pipetting volume, and whose target amount is positive, every
transfer-plan row produced by the normalization solver satisfies
`sample_vol + buffer_vol = tot_vol` exactly, `sample_vol ≤ vol` and
`tot_vol ≤ well_max_vol`. -/
theorem normVolumes_invariants (ve : Bool) (zmin wmax : ℚ) (r : NormRow)
    (res : NormResult) (hz : 0 ≤ zmin) (hzv : zmin ≤ r.vol)
    (hta : 0 < r.target_amt) (htv : 0 < r.target_vol)
    (htw : r.target_vol ≤ wmax)
    (h : normVolumes ve zmin wmax r = .ok res) :
    res.sample_vol + res.buffer_vol = res.tot_vol ∧
    res.sample_vol ≤ r.vol ∧ res.tot_vol ≤ wmax := by
  unfold normVolumes at h
  simp only [] at h
  split_ifs at h with h1 h2 h3 hve h4
  · injection h with h
    subst h
    exact ⟨by ring, min_le_right _ _, htw⟩
  · injection h with h
    subst h
    have hprod : 0 < min r.vol r.target_vol * r.conc :=
      lt_of_lt_of_le hta h2.2
    have hminnn : 0 ≤ min r.vol r.target_vol :=
      le_min (le_trans hz hzv) (le_of_lt htv)
    have hconc : 0 < r.conc := by
      rcases mul_pos_iff.mp hprod with ⟨-, hc⟩ | ⟨hm, -⟩
      · exact hc
      · exact absurd hm (not_lt.mpr hminnn)
    have hs : r.target_amt / r.conc ≤ min r.vol r.target_vol :=
      (div_le_iff₀ hconc).mpr h2.2
    refine ⟨rfl, le_trans hs (min_le_left _ _), ?_⟩
    have : r.target_amt / r.conc + (r.target_vol - r.target_amt / r.conc) =
        r.target_vol := by ring
    simpa [this] using htw
  · injection h with h
    subst h
    exact ⟨by ring, hzv, h4⟩
  · injection h with h
    subst h
    exact ⟨by ring, hzv, htw⟩

/-- Witness for C5's amended theorem: conc 10, accessible vol 5, target
amount 20, target vol 10, minimum pipetting volume 0.1, `well_max_vol` 15
(the ideal case) yields `sample_vol = 2`, `buffer_vol = 8`, `tot_vol = 10`,
satisfying all three invariants. -/
theorem normVolumes_invariants_witness :
    normVolumes true (1/10) 15 ⟨10, 5, 20, 10⟩ = .ok ⟨2, 8, 10⟩ ∧
    ((2:ℚ) + 8 = 10 ∧ (2:ℚ) ≤ 5 ∧ (10:ℚ) ≤ 15) := by
  have heq : normVolumes true (1/10) 15 ⟨10, 5, 20, 10⟩ = .ok ⟨2, 8, 10⟩ := by
    norm_num [normVolumes, maxTransferAmt, minTransferAmt]
  refine ⟨heq, ?_⟩
  have := normVolumes_invariants true (1/10) 15 ⟨10, 5, 20, 10⟩ ⟨2, 8, 10⟩
    (by norm_num) (by norm_num) (by norm_num) (by norm_num) (by norm_num) heq
  simpa using this

lemma normVolumes_case3_expansion (zmin wmax : ℚ) (r : NormRow)
    (hmin : r.target_amt < minTransferAmt zmin r)
    (hmax : ¬ maxTransferAmt r < r.target_amt) :
    normVolumes true zmin wmax r =
      if minTransferAmt zmin r / targetConc r ≤ wmax then
        .ok ⟨zmin, minTransferAmt zmin r / targetConc r - zmin,
          minTransferAmt zmin r / targetConc r⟩
      else .error "Sample is too concentrated and must be diluted manually" := by
  unfold normVolumes
  rw [if_neg hmax, if_neg (fun hc => absurd hc.1 (not_le.mpr hmin)),
    if_pos hmin, if_pos rfl]

/-- C8: in normalization mode with volume expansion enabled, for every
over-concentrated sample (`min_transfer_amt > target_amt`, and not in the
insufficient-sample case that the code dispatches first), the solver either
fails — exactly when the increased volume `min_transfer_amt / target_conc`
exceeds `well_max_vol` — or returns a row whose total volume is exactly
`min_transfer_amt / target_conc` and whose sample volume is the minimum
pipettable volume. -/
theorem normVolumes_volume_expansion (zmin wmax : ℚ) (r : NormRow)
    (hmin : r.target_amt < minTransferAmt zmin r)
    (hmax : ¬ maxTransferAmt r < r.target_amt) :
    ((∃ e, normVolumes true zmin wmax r = .error e) ↔
      wmax < minTransferAmt zmin r / targetConc r) ∧
    ∀ res, normVolumes true zmin wmax r = .ok res →
      res.tot_vol = minTransferAmt zmin r / targetConc r ∧
      res.sample_vol = zmin := by
  rw [normVolumes_case3_expansion zmin wmax r hmin hmax]
  by_cases h4 : minTransferAmt zmin r / targetConc r ≤ wmax
  · rw [if_pos h4]
    refine ⟨⟨fun ⟨e, he⟩ => absurd he (by simp), fun hlt => absurd hlt (not_lt.mpr h4)⟩, ?_⟩
    intro res hres
    injection hres with hres
    subst hres
    exact ⟨rfl, rfl⟩
  · rw [if_neg h4]
    refine ⟨⟨fun _ => not_le.mp h4, fun _ => ⟨_, rfl⟩⟩, ?_⟩
    intro res hres
    simp at hres

/-- Witness for C8: conc 100, accessible vol 5, target amount 1, target vol
10, minimum pipetting volume 0.1, `well_max_vol` 200: the sample is
over-concentrated and the solver expands the total volume to
`10 / 0.1 = 100` with sample volume 0.1. -/
theorem normVolumes_volume_expansion_witness :
    (⟨100, 5, 1, 10⟩ : NormRow).target_amt <
      minTransferAmt (1/10) ⟨100, 5, 1, 10⟩ ∧
    ¬ maxTransferAmt ⟨100, 5, 1, 10⟩ < (⟨100, 5, 1, 10⟩ : NormRow).target_amt ∧
    normVolumes true (1/10) 200 ⟨100, 5, 1, 10⟩ = .ok ⟨1/10, 100 - 1/10, 100⟩ ∧
    ((100:ℚ) = minTransferAmt (1/10) ⟨100, 5, 1, 10⟩ /
        targetConc ⟨100, 5, 1, 10⟩ ∧
      ((1:ℚ)/10) = 1/10) := by
  have h1 : (⟨100, 5, 1, 10⟩ : NormRow).target_amt <
      minTransferAmt (1/10) ⟨100, 5, 1, 10⟩ := by
    norm_num [minTransferAmt]
  have h2 : ¬ maxTransferAmt ⟨100, 5, 1, 10⟩ <
      (⟨100, 5, 1, 10⟩ : NormRow).target_amt := by
    norm_num [maxTransferAmt]
  have heq : normVolumes true (1/10) 200 ⟨100, 5, 1, 10⟩ =
      .ok ⟨1/10, 100 - 1/10, 100⟩ := by
    norm_num [normVolumes, maxTransferAmt, minTransferAmt, targetConc]
  refine ⟨h1, h2, heq, ?_⟩
  have := (normVolumes_volume_expansion (1/10) 200 ⟨100, 5, 1, 10⟩ h1 h2).2
    ⟨1/10, 100 - 1/10, 100⟩ heq
  simpa using this.symm

/-- C3 (code bug): a pool of two samples (conc 10, accessible volume 1 each)
with minimum pipetting volume 0.5, `well_max_vol` 180, target concentration
0.2 and target volume 150 admits an even pool, has a concentration-implied
feasible volume range topping out at `pool_max_vol_given_conc = 100`, yet the
solver sets the pool volume to `well_max_vol = 180` — above both the target
(150) and the feasible maximum (100) — because the over-target branch assigns
`well_max_vol` instead of `pool_max_vol_given_conc`. -/
theorem poolVol_exceeds_feasible_max :
    evenPoolIsPossible (1/2) [⟨10, 1⟩, ⟨10, 1⟩] = true ∧
    poolConc (1/2) 180 (1/5) [⟨10, 1⟩, ⟨10, 1⟩] = 1/5 ∧
    poolMaxVolGivenConc (1/2) 180 (1/5) [⟨10, 1⟩, ⟨10, 1⟩] = 100 ∧
    poolVol (1/2) 180 (1/5) 150 [⟨10, 1⟩, ⟨10, 1⟩] = 180 ∧
    ((0:ℚ) < 150 ∧ (150:ℚ) ≤ 180) ∧ ¬ ((180:ℚ) ≤ 100) := by
  norm_num [poolVol, poolMaxVolGivenConc, poolMinVolGivenConc, poolConc,
    poolMaxConc, poolMinConc, poolMinAmt, poolMaxAmt, poolMinSampleVol,
    evenPoolIsPossible, highestMinAmount, lowestMaxAmount, listMaxQ, listMinQ]

end Zika

namespace AvitiManifest

lemma hammingCount_append (a b c d : List Char) (h : a.length = b.length) :
    hammingCount (a ++ c) (b ++ d) = hammingCount a b + hammingCount c d := by
  unfold hammingCount
  rw [List.zip_append h, List.countP_append]

lemma hammingCount_self (a : List Char) : hammingCount a a = 0 := by
  induction a with
  | nil => rfl
  | cons x t ih => simpa [hammingCount, List.countP_cons] using ih

lemma mapM_eq_ok {α β : Type} (f : α → Except String β) (g : α → β)
    (l : List α) (h : ∀ a ∈ l, f a = .ok (g a)) :
    l.mapM f = .ok (l.map g) := by
  induction l with
  | nil => rfl
  | cons a t ih =>
      rw [List.mapM_cons, h a (List.mem_cons_self a t),
        ih fun x hx => h x (List.mem_cons_of_mem a hx)]
      rfl

lemma listMinNat_le : ∀ (l : List ℕ) (a : ℕ), a ∈ l → listMinNat l ≤ a
  | [], a, ha => absurd ha (List.not_mem_nil a)
  | [b], a, ha => by
      rw [List.mem_singleton] at ha
      subst ha
      exact le_refl _
  | b :: c :: t, a, ha => by
      rcases List.mem_cons.mp ha with rfl | h
      · exact min_le_left _ _
      · exact le_trans (min_le_right _ _) (listMinNat_le (c :: t) a h)

lemma flipCombos_lengths {r1 r2 : ManifestRow}
    {c : List Char × List Char × List Char × List Char}
    (hc : c ∈ flipCombos r1 r2) :
    c.1.length = r1.index1.length ∧ c.2.1.length = r1.index2.length ∧
    c.2.2.1.length = r2.index1.length ∧ c.2.2.2.length = r2.index2.length := by
  simp only [flipCombos, List.mem_flatMap, List.mem_map, List.mem_cons,
    List.not_mem_nil, or_false] at hc
  obtain ⟨a1, ha1, a2, ha2, b1, hb1, b2, hb2, rfl⟩ := hc
  rcases ha1 with rfl | rfl <;> rcases ha2 with rfl | rfl <;>
    rcases hb1 with rfl | rfl <;> rcases hb2 with rfl | rfl <;>
      simp [revcomp_length]

lemma head_mem_flipCombos (r1 r2 : ManifestRow) :
    (r1.index1, r1.index2, r2.index1, r2.index2) ∈ flipCombos r1 r2 := by
  simp only [flipCombos, List.mem_flatMap, List.mem_map, List.mem_cons]
  exact ⟨r1.index1, Or.inl rfl, r1.index2, Or.inl rfl, r2.index1, Or.inl rfl,
    r2.index2, Or.inl rfl, rfl⟩

/-- C6: for every two manifest rows whose `Index1` lengths agree and whose
`Index2` lengths agree, both distance computations of `check_pair_distance`
succeed, and the flip-search distance (`check_flips=True`, minimum over all
16 reverse-complement combinations) never exceeds the direct distance
(`check_flips=False`, Hamming distance over the concatenations). -/
theorem flip_distance_le_direct (r1 r2 : ManifestRow)
    (h1 : r1.index1.length = r2.index1.length)
    (h2 : r1.index2.length = r2.index2.length) :
    ∃ dT dF, pairDist r1 r2 true = .ok dT ∧ pairDist r1 r2 false = .ok dF ∧
      dT ≤ dF := by
  have hok : ∀ c ∈ flipCombos r1 r2,
      (do
        let d1 ← pyHamming c.1 c.2.2.1
        let d2 ← pyHamming c.2.1 c.2.2.2
        pure (d1 + d2) : Except String ℕ) =
        .ok (hammingCount c.1 c.2.2.1 + hammingCount c.2.1 c.2.2.2) := by
    intro c hc
    obtain ⟨l1, l2, l3, l4⟩ := flipCombos_lengths hc
    unfold pyHamming
    rw [if_pos (by rw [l1, l3, h1]), if_pos (by rw [l2, l4, h2])]
    rfl
  have hmap := mapM_eq_ok _
    (fun c => hammingCount c.1 c.2.2.1 + hammingCount c.2.1 c.2.2.2)
    (flipCombos r1 r2) hok
  refine ⟨listMinNat ((flipCombos r1 r2).map
      fun c => hammingCount c.1 c.2.2.1 + hammingCount c.2.1 c.2.2.2),
    hammingCount (r1.index1 ++ r1.index2) (r2.index1 ++ r2.index2),
    ?_, ?_, ?_⟩
  · unfold pairDist
    rw [if_pos rfl, hmap]
    rfl
  · unfold pairDist pyHamming
    rw [if_neg Bool.false_ne_true,
      if_pos (by simp [List.length_append, h1, h2])]
  · rw [hammingCount_append _ _ _ _ h1]
    exact listMinNat_le _ _
      (List.mem_map_of_mem _ (head_mem_flipCombos r1 r2))

/-- Witness for C6 at two equal-length dual-index rows. -/
theorem flip_distance_le_direct_witness :
    ("ACGT".toList.length = "ACGA".toList.length ∧
      "TTTT".toList.length = "TTAT".toList.length) ∧
    ∃ dT dF,
      pairDist ⟨"A", "ACGT".toList, "TTTT".toList⟩
        ⟨"B", "ACGA".toList, "TTAT".toList⟩ true = .ok dT ∧
      pairDist ⟨"A", "ACGT".toList, "TTTT".toList⟩
        ⟨"B", "ACGA".toList, "TTAT".toList⟩ false = .ok dF ∧
      dT ≤ dF :=
  ⟨⟨rfl, rfl⟩,
    flip_distance_le_direct ⟨"A", "ACGT".toList, "TTTT".toList⟩
      ⟨"B", "ACGA".toList, "TTAT".toList⟩ rfl rfl⟩

/-- C7: whenever the distance computation of `check_pair_distance` succeeds
with value `d`, a warning is logged exactly when `d` is at or below the
warning threshold, and the fatal identical-index error is raised exactly when
`d = 0`; in particular two rows with identical concatenated `Index1+Index2`
always yield distance 0 and raise the fatal error. -/
theorem check_pair_distance_warn_and_raise (r1 r2 : ManifestRow) (cf : Bool)
    (thr : ℕ) :
    (∀ d, pairDist r1 r2 cf = .ok d →
      ∃ w raised, check_pair_distance r1 r2 cf thr = .ok (w, raised) ∧
        (w ≠ [] ↔ d ≤ thr) ∧ (raised = true ↔ d = 0)) ∧
    (r1.index1 ++ r1.index2 = r2.index1 ++ r2.index2 →
      pairDist r1 r2 false = .ok 0 ∧
      ∃ w, check_pair_distance r1 r2 false thr = .ok (w, true)) := by
  constructor
  · intro d hd
    have hout : check_pair_distance r1 r2 cf thr =
        if d ≤ thr then
          if d = 0 then
            .ok (["Hamming distance " ++ toString d ++ " between " ++
              r1.sampleName ++ " and " ++ r2.sampleName], true)
          else
            .ok (["Hamming distance " ++ toString d ++ " between " ++
              r1.sampleName ++ " and " ++ r2.sampleName], false)
        else .ok ([], false) := by
      unfold check_pair_distance
      rw [hd]
      rfl
    split_ifs at hout with hle h0
    · exact ⟨_, _, hout, ⟨fun _ => hle, fun _ => by simp⟩,
        ⟨fun _ => h0, fun _ => rfl⟩⟩
    · exact ⟨_, _, hout, ⟨fun _ => hle, fun _ => by simp⟩,
        ⟨fun hcontra => absurd hcontra Bool.false_ne_true,
          fun hd0 => absurd hd0 h0⟩⟩
    · exact ⟨_, _, hout, ⟨fun hne => absurd rfl hne, fun hdle => absurd hdle hle⟩,
        ⟨fun hcontra => absurd hcontra Bool.false_ne_true,
          fun hd0 => absurd (hd0 ▸ Nat.zero_le thr) hle⟩⟩
  · intro hid
    have hdist : pairDist r1 r2 false = .ok 0 := by
      unfold pairDist pyHamming
      rw [if_neg Bool.false_ne_true, hid, if_pos rfl, hammingCount_self]
    refine ⟨hdist, ?_⟩
    have hout : check_pair_distance r1 r2 false thr =
        .ok (["Hamming distance " ++ toString 0 ++ " between " ++
          r1.sampleName ++ " and " ++ r2.sampleName], true) := by
      unfold check_pair_distance
      rw [hdist]
      show (if 0 ≤ thr then _ else _) = _
      rw [if_pos (Nat.zero_le thr), if_pos rfl]
      rfl
    exact ⟨_, hout⟩

/-- Witness for C7 at two rows with identical concatenated indices and the
default threshold 3. -/
theorem check_pair_distance_warn_and_raise_witness :
    ("ACGT".toList ++ "TTTT".toList = "ACGT".toList ++ "TTTT".toList) ∧
    (pairDist ⟨"A", "ACGT".toList, "TTTT".toList⟩
        ⟨"B", "ACGT".toList, "TTTT".toList⟩ false = .ok 0 ∧
      ∃ w, check_pair_distance ⟨"A", "ACGT".toList, "TTTT".toList⟩
        ⟨"B", "ACGT".toList, "TTTT".toList⟩ false 3 = .ok (w, true)) :=
  ⟨rfl, (check_pair_distance_warn_and_raise ⟨"A", "ACGT".toList, "TTTT".toList⟩
    ⟨"B", "ACGT".toList, "TTTT".toList⟩ false 3).2 rfl⟩

end AvitiManifest

namespace Zika

/-- C8 (counterexample): a sample with conc 100, accessible volume 5, target
amount 7 and target volume 0.05 is over-concentrated
(`min_transfer_amt = 10 > 7`), yet because it also satisfies
`max_transfer_amt = 5 < 7` the code dispatches the insufficient-sample case
first and returns `(0.05, 0, 0.05)` with no error — the total volume is not
`min_transfer_amt / target_conc = 1/14` and the sample volume is not the
minimum pipettable volume 0.1, contradicting the claim as stated. -/
theorem normVolumes_volume_expansion_counterexample :
    (⟨100, 5, 7, 1/20⟩ : NormRow).target_amt <
      minTransferAmt (1/10) ⟨100, 5, 7, 1/20⟩ ∧
    normVolumes true (1/10) 15 ⟨100, 5, 7, 1/20⟩ = .ok ⟨1/20, 0, 1/20⟩ ∧
    ¬ ((1:ℚ)/20 = 1/10) ∧
    ¬ ((1:ℚ)/20 =
        minTransferAmt (1/10) ⟨100, 5, 7, 1/20⟩ / targetConc ⟨100, 5, 7, 1/20⟩) := by
  refine ⟨by norm_num [minTransferAmt], ?_, by norm_num, ?_⟩
  · norm_num [normVolumes, maxTransferAmt, minTransferAmt]
  · norm_num [minTransferAmt, targetConc]

end Zika
